import Mathlib

/-!
Verification of the TT-Reports upload-reconciliation and aggregation core.

The definitions below are shallow embeddings of the Python source:
  * `src/components/file_uploader.py` — ingestion normalization and the
    reconciliation logic of `upload_data_to_sheets`;
  * `src/components/data_export.py` — period assignment and the aggregation
    with safe-division ROI / cost-per-order recomputation;
  * `src/components/dashboard.py` — KPI summary computations;
  * `src/utils/helpers.py` — the account classifier `extract_account`.

Numeric record values are modelled as rationals; IEEE division-by-zero
behaviour (infinity / NaN production and the subsequent replace/fillna
cleanup steps in the source) is modelled explicitly with the `FVal` type.
-/

/-- Python `str.strip()` on the character list of a string: drop whitespace
from both ends.  Used by `upload_data_to_sheets` (lines 83-84) to normalize
`campaign_id` before the duplicate join. -/
def stripChars (l : List Char) : List Char :=
  (((l.dropWhile Char.isWhitespace).reverse.dropWhile Char.isWhitespace).reverse)

/-- Python `str.strip()` at the `String` level. -/
def pyStrip (s : String) : String :=
  String.mk (stripChars s.data)

/-- One row of advertising-performance data, as reconciliation sees it.
Only the fields that take part in `upload_data_to_sheets` lines 78-137 are
modelled: the composite-key fields and `cost` (carried along to observe which
record survives a merge).  `report_date` is the normalized date string. -/
structure Rec where
  campaign_id : String
  report_date : String
  cost : ℚ
deriving DecidableEq, Repr

/-- The composite identity key used by the duplicate join: `campaign_id`
stripped (source lines 83-84) paired with `report_date` (merge `on=` columns,
lines 87-92). -/
def mergeKey (r : Rec) : String × String :=
  (pyStrip r.campaign_id, r.report_date)

/-- Boolean key comparison used by the join. -/
def keyB (a b : Rec) : Bool :=
  decide (mergeKey a = mergeKey b)

/-- The keys of a record list, in order. -/
def keysList (l : List Rec) : List (String × String) :=
  l.map mergeKey

/-- `duplicate_rows` (source lines 87-92): the inner join of the incoming
batch with the existing rows on (`campaign_id`, `report_date`).  The inner
join emits one output row per matching pair; the engine only consumes its
emptiness and its key set, both of which this filter preserves (each
conflicting incoming row is kept once). -/
def duplicate_rows (existing combined : List Rec) : List Rec :=
  combined.filter (fun r => existing.any (fun e => keyB e r))

/-- The upload-conflict policy offered to the user (source lines 100-103). -/
inductive Policy where
  | skipDuplicates
  | overwriteDuplicates
deriving DecidableEq, Repr

/-- `final_df` of `upload_data_to_sheets`: the reconciled snapshot handed to
the persistence step, on the main path where both sides carry usable
`campaign_id` and `report_date` columns (source lines 78-129; all four
reconciliation claims assume that path):
  * existing empty ⇒ the combined upload verbatim (line 137);
  * no duplicates ⇒ existing rows followed by the upload (line 129);
  * overwrite ⇒ existing rows whose key is not conflicting, then the whole
    upload (lines 105-116);
  * skip ⇒ only the incoming rows whose key is not conflicting
    (lines 117-126). -/
def final_df (existing combined : List Rec) (policy : Policy) : List Rec :=
  if existing.isEmpty then combined
  else
    let dups := duplicate_rows existing combined
    if dups.isEmpty then existing ++ combined
    else
      match policy with
      | .overwriteDuplicates =>
          (existing.filter (fun e => ! dups.any (fun d => keyB d e))) ++ combined
      | .skipDuplicates =>
          combined.filter (fun r => ! dups.any (fun d => keyB d r))

/-- The data rows of the sheet after the upload: `sh.update` writes
`final_df` starting at the first row past the current contents (source lines
140-158), so the persisted set is the old rows followed by the payload. -/
def sheetAfterUpload (existing combined : List Rec) (policy : Policy) : List Rec :=
  existing ++ final_df existing combined policy

/-- The storage-quirk marker of `render_file_uploader` line 41
(`f"'{x}"`): a leading apostrophe (character 39) is prepended to every
incoming `campaign_id` so the sheet does not misread numeric-looking IDs. -/
def markCampaignId (s : String) : String :=
  String.mk (Char.ofNat 39 :: s.data)

/-- The concrete records of the skip/overwrite scenario of the spec. -/
def recA10 : Rec := ⟨"A", "2024-01-01", 10⟩

def recA20 : Rec := ⟨"A", "2024-01-01", 20⟩

def recA30 : Rec := ⟨"A", "2024-01-01", 30⟩

def recB5 : Rec := ⟨"B", "2024-01-01", 5⟩

/-- Python `str.lower()` restricted to what the classifier needs:
character-wise lowering. -/
def pyLower (s : String) : String :=
  String.mk (s.data.map Char.toLower)

/-- `pat` is a prefix of `hay` (character lists). -/
def isPrefixCl : List Char → List Char → Bool
  | [], _ => true
  | _ :: _, [] => false
  | a :: as, b :: bs => a == b && isPrefixCl as bs

/-- Python's `pat in hay` substring test on character lists. -/
def containsCl (hay pat : List Char) : Bool :=
  match hay with
  | [] => isPrefixCl pat []
  | c :: t => isPrefixCl pat (c :: t) || containsCl t pat

/-- Python's `pat in hay` substring test on strings. -/
def containsStr (hay pat : String) : Bool :=
  containsCl hay.data pat.data

/-- `extract_account` from `src/utils/helpers.py` lines 9-23: `none` models a
`pd.isna` campaign name; otherwise ordered case-insensitive substring rules,
first match wins, default label "Other Accounts". -/
def extract_account (campaign_name : Option String) : String :=
  match campaign_name with
  | none => "Other Accounts"
  | some s =>
    let l := pyLower s
    if containsStr l "granitestone" then "Granitestone"
    else if containsStr l "bell and howell" then "Bell+Howell"
    else "Other Accounts"

/-- A pandas float cell: a finite rational or one of the IEEE special values
produced by dividing by zero. -/
inductive FVal where
  | finite (q : ℚ)
  | posInf
  | negInf
  | nan
deriving DecidableEq, Repr

/-- Float division as pandas performs it on (finite) column values:
`x / 0` is NaN when `x = 0`, `±inf` otherwise. -/
def fdiv (x y : ℚ) : FVal :=
  if y = 0 then
    if x = 0 then .nan else if 0 < x then .posInf else .negInf
  else .finite (x / y)

/-- Floor of a rational as an integer. -/
def qFloor (q : ℚ) : ℤ :=
  ⌊q⌋

/-- Round to the nearest integer, ties to even — the rounding used by
pandas/numpy `.round`. -/
def roundHalfEven (q : ℚ) : ℤ :=
  let f := qFloor q
  let r := q - (f : ℚ)
  if r < 1 / 2 then f
  else if 1 / 2 < r then f + 1
  else if f % 2 = 0 then f else f + 1

/-- pandas `.round(2)` on a finite value. -/
def round2 (q : ℚ) : ℚ :=
  (roundHalfEven (q * 100) : ℚ) / 100

/-- The cleanup applied to the derived ratio columns in
`process_export_data` lines 85-87: `replace([inf, -inf], NA)`, `fillna(0)`,
`.round(2)`.  Special values become 0; finite values are rounded. -/
def cleanF : FVal → FVal
  | .finite q => .finite (round2 q)
  | _ => .finite 0

/-- One row of the filtered data entering `process_export_data`, with the
`period` column already assigned.  The three numeric metrics that feed the
derived ratios are modelled; metric values are meaningful only when the
corresponding column exists (see `XCols`). -/
structure XRow where
  account_name : String
  campaign_name : String
  period : String
  cost : ℚ
  gross_revenue : ℚ
  orders_sku : ℚ
deriving DecidableEq, Repr

/-- Which optional metric columns are present in the frame
(`'gross_revenue' in summary_df.columns` checks, lines 74-82). -/
structure XCols where
  hasCost : Bool
  hasRevenue : Bool
  hasOrders : Bool
deriving DecidableEq, Repr

/-- The grouping key of `process_export_data` line 57:
(`account_name`, `campaign_name`, `period`). -/
def gkey (r : XRow) : String × String × String :=
  (r.account_name, r.campaign_name, r.period)

/-- The group keys of the summary frame (one output row per distinct key;
only the set of keys matters to the claims, not their order). -/
def groupKeys (rows : List XRow) : List (String × String × String) :=
  (rows.map gkey).dedup

/-- The rows of one group. -/
def rowsOf (rows : List XRow) (g : String × String × String) : List XRow :=
  rows.filter (fun r => decide (gkey r = g))

/-- `groupby(...).sum()` of the `cost` column for one group. -/
def sumCost (rows : List XRow) (g : String × String × String) : ℚ :=
  ((rowsOf rows g).map XRow.cost).sum

/-- `groupby(...).sum()` of the `gross_revenue` column for one group. -/
def sumRev (rows : List XRow) (g : String × String × String) : ℚ :=
  ((rowsOf rows g).map XRow.gross_revenue).sum

/-- `groupby(...).sum()` of the `orders_(sku)` column for one group. -/
def sumOrders (rows : List XRow) (g : String × String × String) : ℚ :=
  ((rowsOf rows g).map XRow.orders_sku).sum

/-- `summary_df['orders_(sku)'].ne(0).any()` (line 79): some group's summed
orders is non-zero. -/
def anyOrdersNZ (rows : List XRow) : Bool :=
  (groupKeys rows).any (fun g => decide (sumOrders rows g ≠ 0))

/-- The raw `roi` column of lines 74-77: `gross_revenue / cost` when both
columns exist, else the constant 0. -/
def roiRaw (cols : XCols) (rows : List XRow) (g : String × String × String) : FVal :=
  if cols.hasRevenue && cols.hasCost then fdiv (sumRev rows g) (sumCost rows g)
  else .finite 0

/-- The raw `cost_per_order` column of lines 79-82: `cost / orders_(sku)`
when both columns exist and some group has non-zero summed orders, else 0. -/
def cpoRaw (cols : XCols) (rows : List XRow) (g : String × String × String) : FVal :=
  if cols.hasCost && cols.hasOrders && anyOrdersNZ rows then
    fdiv (sumCost rows g) (sumOrders rows g)
  else .finite 0

/-- The exported `roi` value of a group, after the line 85-86 cleanup. -/
def outRoi (cols : XCols) (rows : List XRow) (g : String × String × String) : FVal :=
  cleanF (roiRaw cols rows g)

/-- The exported `cost_per_order` value of a group, after the line 85-87
cleanup. -/
def outCpo (cols : XCols) (rows : List XRow) (g : String × String × String) : FVal :=
  cleanF (cpoRaw cols rows g)

/-- One row of the filtered data entering `render_kpi_summary`
(`src/components/dashboard.py` lines 187-203).  `none` models a NaN cell:
pandas `.sum()` and `.mean()` skip NaN values. -/
structure KRow where
  cost : Option ℚ
  gross_revenue : Option ℚ
  orders_sku : Option ℚ
  cost_per_order : Option ℚ
deriving DecidableEq, Repr

/-- Which KPI metric columns exist in the frame (line 193-194 checks). -/
structure KCols where
  hasCost : Bool
  hasRevenue : Bool
  hasOrders : Bool
  hasCpo : Bool
deriving DecidableEq, Repr

/-- pandas `.sum()` over a column with NaN cells skipped. -/
def optSum (l : List (Option ℚ)) : ℚ :=
  (l.filterMap id).sum

/-- `total_cost` (line 196): the column sum when the column exists, else 0. -/
def total_cost (cols : KCols) (rows : List KRow) : ℚ :=
  if cols.hasCost then optSum (rows.map KRow.cost) else 0

/-- `total_revenue` (line 197). -/
def total_revenue (cols : KCols) (rows : List KRow) : ℚ :=
  if cols.hasRevenue then optSum (rows.map KRow.gross_revenue) else 0

/-- `total_orders` (line 198). -/
def total_orders (cols : KCols) (rows : List KRow) : ℚ :=
  if cols.hasOrders then optSum (rows.map KRow.orders_sku) else 0

/-- `avg_roi` (line 199): `total_revenue / total_cost` guarded by
`total_cost > 0`, else 0. -/
def avg_roi (cols : KCols) (rows : List KRow) : ℚ :=
  if 0 < total_cost cols rows then total_revenue cols rows / total_cost cols rows else 0

/-- `avg_cpo` (lines 200-203): the mean of the non-NaN `cost_per_order`
cells; an absent column, or an all-NaN column (whose pandas mean is NaN,
line 203), yields 0. -/
def avg_cpo (cols : KCols) (rows : List KRow) : ℚ :=
  if cols.hasCpo then
    let p := rows.filterMap KRow.cost_per_order
    if p.isEmpty then 0 else p.sum / (p.length : ℚ)
  else 0

/-- A calendar date (proleptic Gregorian), as `report_date` after parsing. -/
structure Date where
  year : ℕ
  month : ℕ
  day : ℕ
deriving DecidableEq, Repr

/-- Gregorian leap-year rule. -/
def isLeap (y : ℕ) : Bool :=
  (y % 4 = 0 && y % 100 != 0) || y % 400 = 0

/-- Days in a month of a given year. -/
def daysInMonth (y m : ℕ) : ℕ :=
  if m = 2 then (if isLeap y then 29 else 28)
  else if m = 4 ∨ m = 6 ∨ m = 9 ∨ m = 11 then 30
  else 31

/-- Days of year `y` strictly before month `m`. -/
def daysBeforeMonth (y m : ℕ) : ℕ :=
  (match m with
   | 1 => 0 | 2 => 31 | 3 => 59 | 4 => 90 | 5 => 120 | 6 => 151
   | 7 => 181 | 8 => 212 | 9 => 243 | 10 => 273 | 11 => 304 | _ => 334)
  + (if 3 ≤ m && isLeap y then 1 else 0)

/-- Day count of a date: days since 0001-01-01 (which is day 0, a Monday in
the proleptic Gregorian calendar). -/
def toDays (d : Date) : ℕ :=
  365 * (d.year - 1) + (d.year - 1) / 4 - (d.year - 1) / 100 + (d.year - 1) / 400
    + daysBeforeMonth d.year d.month + (d.day - 1)

/-- Day of week, Monday = 0 .. Sunday = 6 — the pandas
`Timestamp.dayofweek` convention. -/
def dow (d : Date) : ℕ :=
  toDays d % 7

/-- A well-formed calendar date. -/
def ValidDate (d : Date) : Prop :=
  1 ≤ d.year ∧ 1 ≤ d.month ∧ d.month ≤ 12 ∧ 1 ≤ d.day ∧ d.day ≤ daysInMonth d.year d.month

/-- The previous calendar day, borrowing through month and year boundaries. -/
def prevDay (d : Date) : Date :=
  if 2 ≤ d.day then ⟨d.year, d.month, d.day - 1⟩
  else if 2 ≤ d.month then ⟨d.year, d.month - 1, daysInMonth d.year (d.month - 1)⟩
  else ⟨d.year - 1, 12, 31⟩

/-- Subtract `k` calendar days. -/
def subDays (d : Date) : ℕ → Date
  | 0 => d
  | k + 1 => subDays (prevDay d) k

/-- The export grouping granularity (`render_export_section` lines 12-17). -/
inductive Granularity where
  | daily
  | weekly
  | monthly
deriving DecidableEq, Repr

/-- The `period` assignment of `render_export_section` lines 22-28: the date
itself for daily; `dt.to_period("W").start_time` — the date minus its
Monday-based weekday — for weekly; `dt.to_period("M").start_time` — the
first of the month — for monthly. -/
def assignPeriod (g : Granularity) (d : Date) : Date :=
  match g with
  | .daily => d
  | .weekly => subDays d (dow d)
  | .monthly => ⟨d.year, d.month, 1⟩

/-- The decimal digit character for `n % 10`. -/
def digitChar (n : ℕ) : Char :=
  Char.ofNat (48 + n % 10)

/-- Two-digit zero-padded field of `strftime`. -/
def pad2 (n : ℕ) : List Char :=
  [digitChar (n / 10), digitChar n]

/-- Four-digit zero-padded field of `strftime`. -/
def pad4 (n : ℕ) : List Char :=
  [digitChar (n / 1000), digitChar (n / 100), digitChar (n / 10), digitChar n]

/-- The ASCII hyphen. -/
def dashChar : Char :=
  Char.ofNat 45

/-- `strftime('%Y-%m-%d')` (line 88 of `data_export.py`): the period
serialized as a `YYYY-MM-DD` string. -/
def serializeDate (d : Date) : String :=
  String.mk (pad4 d.year ++ dashChar :: (pad2 d.month ++ dashChar :: pad2 d.day))

/-- The numeric value of a digit character. -/
def charVal (c : Char) : ℕ :=
  c.toNat - 48

/-- Read a `YYYY-MM-DD` string back into a date: succeeds exactly on
ten-character strings with hyphens at positions 4 and 7. -/
def decodeYMD (s : String) : Option Date :=
  match s.data with
  | [y3, y2, y1, y0, h1, m1, m0, h2, d1, d0] =>
    if h1 = dashChar ∧ h2 = dashChar then
      some ⟨charVal y3 * 1000 + charVal y2 * 100 + charVal y1 * 10 + charVal y0,
            charVal m1 * 10 + charVal m0,
            charVal d1 * 10 + charVal d0⟩
    else none
  | _ => none

/-- All three metric columns present. -/
def xcolsAll : XCols := ⟨true, true, true⟩

/-- All KPI columns present. -/
def kcolsAll : KCols := ⟨true, true, true, true⟩

/-- A group with zero summed cost and zero summed orders. -/
def xrZero : XRow := ⟨"a", "c", "p", 0, 5, 0⟩

/-- A KPI row whose cost is 0 and whose cost_per_order cell is NaN. -/
def kRowZero : KRow := ⟨some 0, some 5, some 2, none⟩

/-- First row of the sum-then-ratio scenario: cost 100, revenue 150. -/
def xrC6a : XRow := ⟨"acc", "camp", "2024-01-01", 100, 150, 2⟩

/-- Second row of the sum-then-ratio scenario: cost 200, revenue 250. -/
def xrC6b : XRow := ⟨"acc", "camp", "2024-01-01", 200, 250, 3⟩

lemma keyB_eq_true_iff (a b : Rec) : keyB a b = true ↔ mergeKey a = mergeKey b := by
  simp [keyB]

lemma keyB_self (r : Rec) : keyB r r = true := by
  simp [keyB]

lemma keyB_symm (a b : Rec) : keyB a b = keyB b a := by
  simp [keyB, eq_comm]

/-- For an incoming row, matching against the conflict set is the same test
as matching against the existing rows. -/
lemma dups_any_eq_incoming (E I : List Rec) (r : Rec) (hr : r ∈ I) :
    (duplicate_rows E I).any (fun d => keyB d r) = E.any (fun e => keyB e r) := by
  apply Bool.eq_iff_iff.mpr
  simp only [List.any_eq_true, duplicate_rows, List.mem_filter]
  constructor
  · rintro ⟨d, ⟨_, e, heE, hed⟩, hdr⟩
    refine ⟨e, heE, ?_⟩
    rw [keyB_eq_true_iff] at hed hdr ⊢
    exact hed.trans hdr
  · rintro ⟨e, heE, her⟩
    exact ⟨r, ⟨hr, e, heE, her⟩, keyB_self r⟩

/-- For an existing row, matching against the conflict set is the same test
as matching against the incoming rows. -/
lemma dups_any_eq_existing (E I : List Rec) (e : Rec) (he : e ∈ E) :
    (duplicate_rows E I).any (fun d => keyB d e) = I.any (fun i => keyB i e) := by
  apply Bool.eq_iff_iff.mpr
  simp only [List.any_eq_true, duplicate_rows, List.mem_filter]
  constructor
  · rintro ⟨d, ⟨hdI, _⟩, hde⟩
    exact ⟨d, hdI, hde⟩
  · rintro ⟨i, hiI, hie⟩
    refine ⟨i, ⟨hiI, e, he, ?_⟩, hie⟩
    rw [keyB_symm]
    exact hie

/-- An empty incoming batch has no conflicts. -/
lemma duplicate_rows_nil (E : List Rec) : duplicate_rows E [] = [] :=
  rfl

/-- When the incoming batch is a suffix of the existing set, every incoming
row conflicts. -/
lemma duplicate_rows_suffix (X I : List Rec) : duplicate_rows (X ++ I) I = I := by
  apply List.filter_eq_self.mpr
  intro i hi
  exact List.any_eq_true.mpr ⟨i, List.mem_append_right X hi, keyB_self i⟩

/-- Filtering a list by "my key matches none of this very list" empties it. -/
lemma filter_self_keys_nil (I : List Rec) :
    I.filter (fun e => ! I.any (fun i => keyB i e)) = [] := by
  apply List.filter_eq_nil_iff.mpr
  intro e he
  have h : I.any (fun i => keyB i e) = true := List.any_eq_true.mpr ⟨e, he, keyB_self e⟩
  simp [h]

/-- Filtering by the same predicate twice is filtering once. -/
lemma filter_idem (l : List Rec) (p : Rec → Bool) :
    (l.filter p).filter p = l.filter p :=
  List.filter_eq_self.mpr (fun _ ha => (List.mem_filter.mp ha).2)

/-- A filter keyed against an empty incoming list keeps everything. -/
lemma filter_nil_incoming (E : List Rec) :
    E.filter (fun e => ! List.any [] (fun i => keyB i e)) = E :=
  List.filter_eq_self.mpr (fun _ _ => rfl)

/-- The skip branch of `upload_data_to_sheets` (lines 117-126), in terms of
the inputs: when the conflict set is non-empty, `final_df` is exactly the
incoming rows whose key matches no existing row — the existing rows are not
part of the payload. -/
lemma final_df_skip_eq (E I : List Rec) (hE : E ≠ []) (hc : duplicate_rows E I ≠ []) :
    final_df E I .skipDuplicates = I.filter (fun r => ! E.any (fun e => keyB e r)) := by
  have hE' : E.isEmpty = false := by
    cases E with
    | nil => exact absurd rfl hE
    | cons _ _ => rfl
  have hc' : (duplicate_rows E I).isEmpty = false := by
    cases hdl : duplicate_rows E I with
    | nil => exact absurd hdl hc
    | cons _ _ => rfl
  simp only [final_df, hE', hc', Bool.false_eq_true, if_false]
  exact List.filter_congr (fun r hr => by rw [dups_any_eq_incoming E I r hr])

/-- The overwrite branch of `upload_data_to_sheets` (lines 105-116 and the
no-conflict branch, line 129), in terms of the inputs: for non-empty
existing data, `final_df` is the existing rows whose key appears nowhere in
the incoming batch, followed by the whole incoming batch. -/
lemma final_df_overwrite_eq (E I : List Rec) (hE : E ≠ []) :
    final_df E I .overwriteDuplicates =
      (E.filter (fun e => ! I.any (fun i => keyB i e))) ++ I := by
  have hE' : E.isEmpty = false := by
    cases E with
    | nil => exact absurd rfl hE
    | cons _ _ => rfl
  by_cases hc : duplicate_rows E I = []
  · have hc' : (duplicate_rows E I).isEmpty = true := by rw [hc]; rfl
    simp only [final_df, hE', hc', Bool.false_eq_true, if_false, if_true]
    have : E.filter (fun e => ! I.any (fun i => keyB i e)) = E := by
      apply List.filter_eq_self.mpr
      intro e heE
      rw [Bool.not_eq_true']
      rw [← dups_any_eq_existing E I e heE, hc]
      rfl
    rw [this]
  · have hc' : (duplicate_rows E I).isEmpty = false := by
      cases hdl : duplicate_rows E I with
      | nil => exact absurd hdl hc
      | cons _ _ => rfl
    simp only [final_df, hE', hc', Bool.false_eq_true, if_false]
    congr 1
    exact List.filter_congr (fun e heE => by rw [dups_any_eq_existing E I e heE])

/-- Claim C1 counterexample: at existing = [{id "A", 2024-01-01, cost 10}]
and incoming = [{id "A", 2024-01-01, cost 20}], the SKIP_DUPLICATES merged
snapshot `final_df` is empty — it is not the union of the existing records
with the non-conflicting incoming records, and it does not contain exactly
one record of cost 10. -/
theorem C1_counterexample :
    final_df [recA10] [recA20] .skipDuplicates = [] ∧
    final_df [recA10] [recA20] .skipDuplicates ≠
      [recA10] ++ List.filter (fun r => ! List.any [recA10] (fun e => keyB e r)) [recA20] ∧
    (final_df [recA10] [recA20] .skipDuplicates).length ≠ 1 := by
  refine ⟨by decide, by decide, by decide⟩

/-- Claim C1 (amended): for a non-empty existing set and a non-empty
conflict set, the SKIP_DUPLICATES snapshot `final_df` consists of exactly
the incoming records whose (campaign_id, report_date) key matches no
existing record — the existing records are not re-emitted; they stay in the
sheet, and the persisted row set after the append equals the union of the
existing records with those non-conflicting incoming records. -/
theorem C1_skip_merged (E I : List Rec) (hE : E ≠ []) (hc : duplicate_rows E I ≠ []) :
    final_df E I .skipDuplicates = I.filter (fun r => ! E.any (fun e => keyB e r)) ∧
    sheetAfterUpload E I .skipDuplicates =
      E ++ I.filter (fun r => ! E.any (fun e => keyB e r)) := by
  have h := final_df_skip_eq E I hE hc
  exact ⟨h, by rw [sheetAfterUpload, h]⟩

/-- Claim C1 witness: the amended statement at the concrete scenario — the
payload is empty and the persisted sheet keeps exactly the one existing
record of cost 10. -/
theorem C1_witness :
    ([recA10] : List Rec) ≠ [] ∧ duplicate_rows [recA10] [recA20] ≠ [] ∧
    sheetAfterUpload [recA10] [recA20] .skipDuplicates =
      [recA10] ++ List.filter (fun r => ! List.any [recA10] (fun e => keyB e r)) [recA20] ∧
    sheetAfterUpload [recA10] [recA20] .skipDuplicates = [recA10] ∧
    recA10.cost = 10 :=
  ⟨by decide, by decide,
   (C1_skip_merged [recA10] [recA20] (by decide) (by decide)).2,
   by decide, by decide⟩

/-- Claim C2 counterexample: with existing = [{id "A", 2024-01-01, cost 10}]
and an incoming batch carrying two records with the same key
({id "A", 2024-01-01, cost 20} and {id "A", 2024-01-01, cost 30}),
OVERWRITE_DUPLICATES leaves two records sharing one
(campaign_id, report_date) key in the merged set. -/
theorem C2_counterexample :
    ¬ (keysList (final_df [recA10] [recA20, recA30] .overwriteDuplicates)).Nodup := by
  decide

/-- Claim C2 (amended): if neither the existing set nor the incoming batch
contains two records sharing a (campaign_id, report_date) key internally,
then for either policy no two records of the merged snapshot share a key. -/
theorem C2_nodup_keys (E I : List Rec) (p : Policy)
    (hE : (keysList E).Nodup) (hI : (keysList I).Nodup) :
    (keysList (final_df E I p)).Nodup := by
  have hsub : ∀ (l : List Rec) (q : Rec → Bool),
      (keysList l).Nodup → (keysList (l.filter q)).Nodup := fun l q hl =>
    List.Nodup.sublist (List.Sublist.map mergeKey (List.filter_sublist l)) hl
  by_cases hEe : E.isEmpty
  · simp only [final_df, hEe, if_true]
    exact hI
  · have hEe' : E.isEmpty = false := by
      cases h : E.isEmpty
      · rfl
      · exact absurd h hEe
    by_cases hc : duplicate_rows E I = []
    · have hc' : (duplicate_rows E I).isEmpty = true := by rw [hc]; rfl
      simp only [final_df, hEe', Bool.false_eq_true, if_false, hc', if_true]
      rw [keysList, List.map_append, List.nodup_append]
      refine ⟨hE, hI, ?_⟩
      intro k hkE hkI
      rcases List.mem_map.mp hkE with ⟨e, heE, hek⟩
      rcases List.mem_map.mp hkI with ⟨i, hiI, hik⟩
      have hmem : i ∈ duplicate_rows E I := by
        refine List.mem_filter.mpr ⟨hiI, ?_⟩
        refine List.any_eq_true.mpr ⟨e, heE, ?_⟩
        rw [keyB_eq_true_iff, hek, hik]
      rw [hc] at hmem
      exact absurd hmem (List.not_mem_nil i)
    · have hc' : (duplicate_rows E I).isEmpty = false := by
        cases hdl : duplicate_rows E I with
        | nil => exact absurd hdl hc
        | cons _ _ => rfl
      simp only [final_df, hEe', Bool.false_eq_true, if_false, hc']
      cases p with
      | skipDuplicates => exact hsub I _ hI
      | overwriteDuplicates =>
        rw [keysList, List.map_append, List.nodup_append]
        refine ⟨hsub E _ hE, hI, ?_⟩
        intro k hkE hkI
        rcases List.mem_map.mp hkE with ⟨e, heF, hek⟩
        rcases List.mem_map.mp hkI with ⟨i, hiI, hik⟩
        rcases List.mem_filter.mp heF with ⟨heE, hPe⟩
        have hie : keyB i e = true := by rw [keyB_eq_true_iff, hik, hek]
        have hid : i ∈ duplicate_rows E I := by
          refine List.mem_filter.mpr ⟨hiI, ?_⟩
          refine List.any_eq_true.mpr ⟨e, heE, ?_⟩
          rw [keyB_symm]
          exact hie
        have hany : (duplicate_rows E I).any (fun d => keyB d e) = true :=
          List.any_eq_true.mpr ⟨i, hid, hie⟩
        rw [hany] at hPe
        exact absurd hPe (by decide)

/-- Claim C2 witness: the amended statement at a concrete input whose sides
are each internally duplicate-free. -/
theorem C2_witness :
    (keysList [recA10]).Nodup ∧ (keysList [recB5, recA20]).Nodup ∧
    (keysList (final_df [recA10] [recB5, recA20] .skipDuplicates)).Nodup :=
  ⟨by decide, by decide,
   C2_nodup_keys [recA10] [recB5, recA20] .skipDuplicates (by decide) (by decide)⟩

/-- Claim C3: for every non-empty existing set, reconciling with
OVERWRITE_DUPLICATES yields the existing records whose key appears nowhere
in the incoming batch (equivalently, minus the conflict-keyed ones),
followed by all incoming records. -/
theorem C3_overwrite_merged (E I : List Rec) (hE : E ≠ []) :
    final_df E I .overwriteDuplicates =
      (E.filter (fun e => ! I.any (fun i => keyB i e))) ++ I :=
  final_df_overwrite_eq E I hE

/-- Claim C3 witness: at the concrete scenario the merged set is exactly one
record and its cost is 20. -/
theorem C3_witness :
    ([recA10] : List Rec) ≠ [] ∧
    final_df [recA10] [recA20] .overwriteDuplicates =
      (List.filter (fun e => ! List.any [recA20] (fun i => keyB i e)) [recA10]) ++ [recA20] ∧
    final_df [recA10] [recA20] .overwriteDuplicates = [recA20] ∧
    (final_df [recA10] [recA20] .overwriteDuplicates).length = 1 ∧
    recA20.cost = 20 :=
  ⟨by decide, C3_overwrite_merged [recA10] [recA20] (by decide),
   by decide, by decide, by decide⟩

/-- Claim C4: applying the OVERWRITE_DUPLICATES reconciliation twice with
the same incoming batch — merging into the already-merged snapshot — yields
the same merged snapshot as applying it once. -/
theorem C4_overwrite_idempotent (E I : List Rec) :
    final_df (final_df E I .overwriteDuplicates) I .overwriteDuplicates =
      final_df E I .overwriteDuplicates := by
  by_cases hE : E = []
  · subst hE
    have h0 : final_df [] I .overwriteDuplicates = I := rfl
    rw [h0]
    by_cases hI : I = []
    · subst hI
      rfl
    · rw [final_df_overwrite_eq I I hI, filter_self_keys_nil, List.nil_append]
  · have hM := final_df_overwrite_eq E I hE
    have hMne : final_df E I .overwriteDuplicates ≠ [] := by
      rw [hM]
      by_cases hI : I = []
      · subst hI
        rw [filter_nil_incoming, List.append_nil]
        exact hE
      · intro hcontra
        exact hI (List.append_eq_nil.mp hcontra).2
    rw [final_df_overwrite_eq _ I hMne, hM, List.filter_append, filter_idem,
      filter_self_keys_nil, List.append_nil]

/-- Claim C7 counterexample: the ingestion marker is applied before
reconciliation and `str.strip` does not remove it, so an incoming record
whose original id is "A" (marked at ingestion) is not recognised as a
duplicate of an existing record storing the plain id "A" for the same date:
the conflict set is empty and the compared keys differ. -/
theorem C7_counterexample :
    duplicate_rows [recA10] [⟨markCampaignId "A", "2024-01-01", 20⟩] = [] ∧
    pyStrip (markCampaignId "A") ≠ pyStrip "A" ∧
    mergeKey ⟨markCampaignId "A", "2024-01-01", 20⟩ ≠ mergeKey recA10 := by
  refine ⟨by decide, by decide, by decide⟩

/-- Claim C7 (amended): the leading marker is applied at ingestion, before
reconciliation, and the comparison trims whitespace only, so the marker is
present inside the key comparison on the incoming side.  An incoming record
(marked) and an existing record for the same date are recognised as
duplicates exactly when the stored existing id strips to the marked
incoming id — in particular they are recognised when the existing side
carries the identical marker. -/
theorem C7_marker_comparison :
    (∀ (ext raw d : String) (c1 c2 : ℚ),
      duplicate_rows [⟨ext, d, c1⟩] [⟨markCampaignId raw, d, c2⟩] ≠ [] ↔
        pyStrip ext = pyStrip (markCampaignId raw)) ∧
    (∀ (raw d : String) (c1 c2 : ℚ),
      duplicate_rows [⟨markCampaignId raw, d, c1⟩] [⟨markCampaignId raw, d, c2⟩] =
        [⟨markCampaignId raw, d, c2⟩]) := by
  constructor
  · intro ext raw d c1 c2
    by_cases h : pyStrip ext = pyStrip (markCampaignId raw)
    · simp [duplicate_rows, List.filter_cons, keyB, mergeKey, h]
    · simp [duplicate_rows, List.filter_cons, keyB, mergeKey, h]
  · intro raw d c1 c2
    simp [duplicate_rows, List.filter_cons, keyB, mergeKey]

/-- Claim C10: a campaign name containing neither "granitestone" nor
"bell and howell" (case-insensitively) is classified as "Other Accounts". -/
theorem C10_other_accounts (s : String)
    (hg : containsStr (pyLower s) "granitestone" = false)
    (hb : containsStr (pyLower s) "bell and howell" = false) :
    extract_account (some s) = "Other Accounts" := by
  simp only [extract_account, hg, hb, Bool.false_eq_true, if_false]

/-- Claim C10 witness: a name containing the literal label text
"Bell+Howell" (with a plus sign) and no "granitestone" is classified as
"Other Accounts". -/
theorem C10_witness :
    containsStr (pyLower "Bell+Howell Cordless Lamp") "granitestone" = false ∧
    containsStr (pyLower "Bell+Howell Cordless Lamp") "bell and howell" = false ∧
    extract_account (some "Bell+Howell Cordless Lamp") = "Other Accounts" :=
  ⟨by decide, by decide, C10_other_accounts _ (by decide) (by decide)⟩

lemma round2_zero : round2 0 = 0 := by
  simp only [round2, roundHalfEven, qFloor]
  norm_num

/-- The cleanup always produces a finite value. -/
lemma cleanF_finite (v : FVal) : ∃ q, cleanF v = .finite q := by
  cases v <;> exact ⟨_, rfl⟩

/-- A cleaned division by zero is exactly 0, whatever the numerator sign. -/
lemma cleanF_fdiv_den_zero (x : ℚ) : cleanF (fdiv x 0) = .finite 0 := by
  unfold fdiv
  rcases lt_trichotomy x 0 with h | h | h
  · rw [if_pos rfl, if_neg (ne_of_lt h), if_neg (not_lt.mpr (le_of_lt h))]
    rfl
  · subst h
    rw [if_pos rfl, if_pos rfl]
    rfl
  · rw [if_pos rfl, if_neg (ne_of_gt h), if_pos h]
    rfl

/-- A cleaned constant-zero column entry is 0. -/
lemma cleanF_zero : cleanF (.finite 0) = .finite 0 := by
  have h : cleanF (.finite 0) = .finite (round2 0) := rfl
  rw [h, round2_zero]

/-- Claim C5: the aggregation and the KPI summary never emit infinity or
NaN for `roi` or `cost_per_order`.  Both exported ratio columns are always
finite after the replace/fillna cleanup; a group whose summed cost is 0
gets roi 0; a group whose summed orders is 0 gets cost_per_order 0; a
missing metric column produces the constant 0; and on the KPI side a zero
total cost yields avg_roi 0 and a missing or all-NaN cost_per_order column
yields avg_cpo 0. -/
theorem C5_safe_division (cols : XCols) (rows : List XRow)
    (g : String × String × String) (_hg : g ∈ groupKeys rows)
    (kcols : KCols) (krows : List KRow) (_hk : krows ≠ []) :
    (∃ q, outRoi cols rows g = .finite q) ∧
    (∃ q, outCpo cols rows g = .finite q) ∧
    (sumCost rows g = 0 → outRoi cols rows g = .finite 0) ∧
    (sumOrders rows g = 0 → outCpo cols rows g = .finite 0) ∧
    (cols.hasCost = false → outRoi cols rows g = .finite 0 ∧ outCpo cols rows g = .finite 0) ∧
    (cols.hasRevenue = false → outRoi cols rows g = .finite 0) ∧
    (cols.hasOrders = false → outCpo cols rows g = .finite 0) ∧
    (total_cost kcols krows = 0 → avg_roi kcols krows = 0) ∧
    (kcols.hasCpo = false → avg_cpo kcols krows = 0) ∧
    (krows.filterMap KRow.cost_per_order = [] → avg_cpo kcols krows = 0) := by
  have hroi0 : (cols.hasRevenue && cols.hasCost) = false → outRoi cols rows g = .finite 0 := by
    intro hb
    unfold outRoi roiRaw
    rw [hb]
    simp only [Bool.false_eq_true, if_false]
    exact cleanF_zero
  have hcpo0 : (cols.hasCost && cols.hasOrders && anyOrdersNZ rows) = false →
      outCpo cols rows g = .finite 0 := by
    intro hb
    unfold outCpo cpoRaw
    rw [hb]
    simp only [Bool.false_eq_true, if_false]
    exact cleanF_zero
  refine ⟨cleanF_finite _, cleanF_finite _, ?_, ?_, ?_, ?_, ?_, ?_, ?_, ?_⟩
  · intro h0
    cases hb : (cols.hasRevenue && cols.hasCost) with
    | false => exact hroi0 hb
    | true =>
      unfold outRoi roiRaw
      rw [hb, if_pos rfl, h0]
      exact cleanF_fdiv_den_zero _
  · intro h0
    cases hb : (cols.hasCost && cols.hasOrders && anyOrdersNZ rows) with
    | false => exact hcpo0 hb
    | true =>
      unfold outCpo cpoRaw
      rw [hb, if_pos rfl, h0]
      exact cleanF_fdiv_den_zero _
  · intro h
    refine ⟨hroi0 (by rw [h, Bool.and_false]), hcpo0 (by rw [h, Bool.false_and, Bool.false_and])⟩
  · intro h
    exact hroi0 (by rw [h, Bool.false_and])
  · intro h
    exact hcpo0 (by rw [h, Bool.and_false, Bool.false_and])
  · intro h
    unfold avg_roi
    rw [h]
    simp
  · intro h
    simp only [avg_cpo]
    rw [h]
    simp
  · intro h
    simp only [avg_cpo]
    simp [h]

/-- Claim C5 witness: concrete zero-denominator inputs — a single-row group
with cost 0 and orders 0, and a KPI frame with total cost 0 and an all-NaN
cost_per_order column — all resolve to 0. -/
theorem C5_witness :
    outRoi xcolsAll [xrZero] ("a", "c", "p") = .finite 0 ∧
    outCpo xcolsAll [xrZero] ("a", "c", "p") = .finite 0 ∧
    avg_roi kcolsAll [kRowZero] = 0 ∧
    avg_cpo kcolsAll [kRowZero] = 0 := by
  obtain ⟨-, -, h3, h4, -, -, -, h8, -, h10⟩ :=
    C5_safe_division xcolsAll [xrZero] ("a", "c", "p") (by decide)
      kcolsAll [kRowZero] (by decide)
  refine ⟨h3 ?_, h4 ?_, h8 ?_, h10 ?_⟩
  · simp [sumCost, rowsOf, xrZero, gkey]
  · simp [sumOrders, rowsOf, xrZero, gkey]
  · simp [total_cost, kcolsAll, optSum, kRowZero]
  · simp [kRowZero]

/-- Claim C6: for any group whose revenue and cost columns are present and
whose summed cost is non-zero, the exported roi is the group's summed gross
revenue divided by its summed cost, rounded to two decimal places — a
sum-then-ratio, not an average of per-row ratios. -/
theorem C6_sum_then_ratio (cols : XCols) (rows : List XRow)
    (g : String × String × String) (_hg : g ∈ groupKeys rows)
    (hrev : cols.hasRevenue = true) (hcost : cols.hasCost = true)
    (hnz : sumCost rows g ≠ 0) :
    outRoi cols rows g = .finite (round2 (sumRev rows g / sumCost rows g)) := by
  unfold outRoi roiRaw
  rw [hrev, hcost, Bool.and_self, if_pos rfl]
  unfold fdiv
  rw [if_neg hnz]
  rfl

/-- Claim C6 witness: the concrete group with rows (cost 100, revenue 150)
and (cost 200, revenue 250): the aggregated roi is 1.33 — the rounded ratio
of sums (400 / 300) — and not 1.375, the average of the per-row ratios. -/
theorem C6_witness :
    sumCost [xrC6a, xrC6b] ("acc", "camp", "2024-01-01") ≠ 0 ∧
    outRoi xcolsAll [xrC6a, xrC6b] ("acc", "camp", "2024-01-01") =
      .finite (round2 (sumRev [xrC6a, xrC6b] ("acc", "camp", "2024-01-01") /
        sumCost [xrC6a, xrC6b] ("acc", "camp", "2024-01-01"))) ∧
    outRoi xcolsAll [xrC6a, xrC6b] ("acc", "camp", "2024-01-01") = .finite (133 / 100) ∧
    (133 / 100 : ℚ) ≠ 1375 / 1000 := by
  have hc : sumCost [xrC6a, xrC6b] ("acc", "camp", "2024-01-01") = 300 := by
    simp [sumCost, rowsOf, xrC6a, xrC6b, gkey]
    norm_num
  have hr : sumRev [xrC6a, xrC6b] ("acc", "camp", "2024-01-01") = 400 := by
    simp [sumRev, rowsOf, xrC6a, xrC6b, gkey]
    norm_num
  have hnz : sumCost [xrC6a, xrC6b] ("acc", "camp", "2024-01-01") ≠ 0 := by
    rw [hc]
    norm_num
  have T := C6_sum_then_ratio xcolsAll [xrC6a, xrC6b] ("acc", "camp", "2024-01-01")
    (by decide) rfl rfl hnz
  refine ⟨hnz, T, ?_, by norm_num⟩
  rw [T, hr, hc]
  have : round2 (400 / 300 : ℚ) = 133 / 100 := by
    simp only [round2, roundHalfEven, qFloor]
    norm_num
  rw [this]

lemma isLeap_iff (y : ℕ) :
    isLeap y = true ↔ (y % 4 = 0 ∧ y % 100 ≠ 0) ∨ y % 400 = 0 := by
  simp [isLeap, Bool.or_eq_true, Bool.and_eq_true, decide_eq_true_eq, bne_iff_ne]

lemma daysInMonth_pos (y m : ℕ) : 1 ≤ daysInMonth y m := by
  unfold daysInMonth
  split_ifs <;> omega

lemma daysInMonth_le31 (y m : ℕ) : daysInMonth y m ≤ 31 := by
  unfold daysInMonth
  split_ifs <;> omega

/-- Days-before-month bridges across a month boundary. -/
lemma daysBeforeMonth_succ (y m : ℕ) (h1 : 2 ≤ m) (h2 : m ≤ 12) :
    daysBeforeMonth y (m - 1) + daysInMonth y (m - 1) = daysBeforeMonth y m := by
  interval_cases m <;> cases hL : isLeap y <;>
    simp [daysBeforeMonth, daysInMonth, hL]

lemma daysBeforeMonth_one (y : ℕ) : daysBeforeMonth y 1 = 0 := by
  simp [daysBeforeMonth]

lemma daysBeforeMonth_twelve (y : ℕ) :
    daysBeforeMonth y 12 = 334 + (if isLeap y then 1 else 0) := by
  simp [daysBeforeMonth]

lemma validDate_mk (y m dd : ℕ) : ValidDate ⟨y, m, dd⟩ ↔
    (1 ≤ y ∧ 1 ≤ m ∧ m ≤ 12 ∧ 1 ≤ dd ∧ dd ≤ daysInMonth y m) :=
  Iff.rfl

lemma toDays_mk (y m dd : ℕ) : toDays ⟨y, m, dd⟩ =
    365 * (y - 1) + (y - 1) / 4 - (y - 1) / 100 + (y - 1) / 400
      + daysBeforeMonth y m + (dd - 1) :=
  rfl

lemma year_mk (y m dd : ℕ) : (Date.mk y m dd).year = y :=
  rfl

lemma prevDay_mk (y m dd : ℕ) : prevDay ⟨y, m, dd⟩ =
    if 2 ≤ dd then ⟨y, m, dd - 1⟩
    else if 2 ≤ m then ⟨y, m - 1, daysInMonth y (m - 1)⟩
    else ⟨y - 1, 12, 31⟩ :=
  rfl

set_option maxHeartbeats 1000000 in
/-- Crossing a year boundary backwards accounts for exactly 365 days plus
the leap day of the earlier year. -/
lemma leap_year_bridge (y : ℕ) (hy : 2 ≤ y) :
    365 * (y - 2) + (y - 2) / 4 - (y - 2) / 100 + (y - 2) / 400 + 365 +
      (if isLeap (y - 1) then 1 else 0) =
    365 * (y - 1) + (y - 1) / 4 - (y - 1) / 100 + (y - 1) / 400 := by
  have hiff := isLeap_iff (y - 1)
  cases hL : isLeap (y - 1) with
  | false =>
    have h : ¬(((y - 1) % 4 = 0 ∧ (y - 1) % 100 ≠ 0) ∨ (y - 1) % 400 = 0) := by
      rw [← hiff, hL]
      simp
    simp only [hL, Bool.false_eq_true, if_false]
    omega
  | true =>
    have h : ((y - 1) % 4 = 0 ∧ (y - 1) % 100 ≠ 0) ∨ (y - 1) % 400 = 0 := by
      rw [← hiff, hL]
    simp only [hL, if_true]
    omega

set_option maxHeartbeats 1000000 in
/-- Stepping one day back decreases the day count by exactly one and keeps
the date well-formed, without increasing the year. -/
lemma toDays_prevDay (y m dd : ℕ) (hv : ValidDate ⟨y, m, dd⟩)
    (hpos : 0 < toDays ⟨y, m, dd⟩) :
    toDays (prevDay ⟨y, m, dd⟩) + 1 = toDays ⟨y, m, dd⟩ ∧
      ValidDate (prevDay ⟨y, m, dd⟩) ∧ (prevDay ⟨y, m, dd⟩).year ≤ y := by
  rw [validDate_mk] at hv
  obtain ⟨hy, hm1, hm2, hd1, hd2⟩ := hv
  rw [toDays_mk] at hpos
  by_cases hday : 2 ≤ dd
  · have hp : prevDay ⟨y, m, dd⟩ = ⟨y, m, dd - 1⟩ := by
      rw [prevDay_mk, if_pos hday]
    rw [hp, toDays_mk, toDays_mk, validDate_mk, year_mk]
    exact ⟨by omega, ⟨hy, hm1, hm2, by omega, by omega⟩, by omega⟩
  · by_cases hmon : 2 ≤ m
    · have hd : dd = 1 := by omega
      have hbridge := daysBeforeMonth_succ y m hmon hm2
      have hdm := daysInMonth_pos y (m - 1)
      have hp : prevDay ⟨y, m, dd⟩ = ⟨y, m - 1, daysInMonth y (m - 1)⟩ := by
        rw [prevDay_mk, if_neg hday, if_pos hmon]
      rw [hp, toDays_mk, toDays_mk, validDate_mk, year_mk]
      subst hd
      exact ⟨by omega, ⟨hy, by omega, by omega, hdm, le_refl _⟩, by omega⟩
    · have hd : dd = 1 := by omega
      have hmm : m = 1 := by omega
      subst hd
      subst hmm
      have hy2 : 2 ≤ y := by
        rw [daysBeforeMonth_one] at hpos
        omega
      have hp : prevDay ⟨y, 1, 1⟩ = ⟨y - 1, 12, 31⟩ := by
        rw [prevDay_mk, if_neg (by omega), if_neg (by omega)]
      rw [hp, toDays_mk, toDays_mk, validDate_mk, year_mk, daysBeforeMonth_twelve,
        daysBeforeMonth_one]
      have hb := leap_year_bridge y hy2
      refine ⟨by omega, ⟨by omega, by omega, by omega, by omega, ?_⟩, by omega⟩
      simp [daysInMonth]

/-- Subtracting `k` days decreases the day count by exactly `k`, preserves
well-formedness and never increases the year. -/
lemma subDays_props (k : ℕ) : ∀ (d : Date), ValidDate d → k ≤ toDays d →
    toDays (subDays d k) = toDays d - k ∧ ValidDate (subDays d k) ∧
      (subDays d k).year ≤ d.year := by
  induction k with
  | zero =>
    intro d hv _
    exact ⟨by simp [subDays], hv, le_refl _⟩
  | succ n ih =>
    intro d hv hk
    have hpos : 0 < toDays d := by omega
    have heta : (Date.mk d.year d.month d.day) = d := rfl
    have h := toDays_prevDay d.year d.month d.day (by rw [heta]; exact hv)
      (by rw [heta]; exact hpos)
    rw [heta] at h
    obtain ⟨h1, h2, h3⟩ := h
    have hk' : n ≤ toDays (prevDay d) := by omega
    obtain ⟨g1, g2, g3⟩ := ih (prevDay d) h2 hk'
    have hsub : subDays d (n + 1) = subDays (prevDay d) n := rfl
    rw [hsub]
    exact ⟨by omega, g2, le_trans g3 h3⟩

/-- The Monday-anchored week start: subtracting the weekday lands on day
count `toDays d - dow d`, a multiple of 7 away from Monday day 0. -/
lemma dow_weekStart (d : Date) (hv : ValidDate d) :
    toDays (subDays d (dow d)) = toDays d - dow d ∧
      ValidDate (subDays d (dow d)) ∧ (subDays d (dow d)).year ≤ d.year ∧
      dow (subDays d (dow d)) = 0 := by
  have hle : dow d ≤ toDays d := Nat.mod_le _ _
  obtain ⟨h1, h2, h3⟩ := subDays_props (dow d) d hv hle
  refine ⟨h1, h2, h3, ?_⟩
  rw [dow, h1, dow]
  omega

lemma charVal_digitChar (x : ℕ) : charVal (digitChar x) = x % 10 := by
  have hk : x % 10 < 10 := Nat.mod_lt _ (by omega)
  unfold digitChar charVal
  generalize hgen : x % 10 = k
  rw [hgen] at hk
  interval_cases k <;> decide

/-- Reading a serialized date back recovers its components (bounded
fields). -/
lemma decodeYMD_serializeDate (y m dd : ℕ) (hy : y ≤ 9999) (hm : m ≤ 99) (hd : dd ≤ 99) :
    decodeYMD (serializeDate ⟨y, m, dd⟩) = some ⟨y, m, dd⟩ := by
  have step : decodeYMD (serializeDate ⟨y, m, dd⟩) =
      (if dashChar = dashChar ∧ dashChar = dashChar then
        some ⟨charVal (digitChar (y / 1000)) * 1000 + charVal (digitChar (y / 100)) * 100 +
              charVal (digitChar (y / 10)) * 10 + charVal (digitChar y),
              charVal (digitChar (m / 10)) * 10 + charVal (digitChar m),
              charVal (digitChar (dd / 10)) * 10 + charVal (digitChar dd)⟩
      else none) := rfl
  rw [step, if_pos ⟨rfl, rfl⟩]
  simp only [charVal_digitChar, Option.some.injEq, Date.mk.injEq]
  refine ⟨?_, ?_, ?_⟩ <;> omega

/-- Any well-formed date with a four-digit year round-trips through the
`YYYY-MM-DD` serialization. -/
lemma decode_serialize_valid (p : Date) (hvp : ValidDate p) (hyp : p.year ≤ 9999) :
    decodeYMD (serializeDate p) = some p := by
  obtain ⟨py, pm, pd⟩ := p
  rw [validDate_mk] at hvp
  have h31 := daysInMonth_le31 py pm
  exact decodeYMD_serializeDate py pm pd hyp (by omega) (by omega)

/-- Claim C8: before aggregation each record's period is, for DAILY, its
report_date itself; for WEEKLY, a well-formed date that is a Monday
(weekday 0 in the pandas convention), at most six days before report_date
and in the same ISO week (the Monday-aligned week start); for MONTHLY, the
first day of the same calendar month; and every assigned period serializes
to a YYYY-MM-DD string that decodes back to exactly that period. -/
theorem C8_period_assignment (d : Date) (hv : ValidDate d) (hy : d.year ≤ 9999) :
    assignPeriod .daily d = d ∧
    (ValidDate (assignPeriod .weekly d) ∧ dow (assignPeriod .weekly d) = 0 ∧
      toDays (assignPeriod .weekly d) ≤ toDays d ∧
      toDays d < toDays (assignPeriod .weekly d) + 7) ∧
    ((assignPeriod .monthly d).year = d.year ∧
      (assignPeriod .monthly d).month = d.month ∧
      (assignPeriod .monthly d).day = 1 ∧ ValidDate (assignPeriod .monthly d)) ∧
    (∀ g : Granularity, decodeYMD (serializeDate (assignPeriod g d)) =
      some (assignPeriod g d)) := by
  obtain ⟨w1, w2, w3, w4⟩ := dow_weekStart d hv
  have hdow7 : dow d < 7 := Nat.mod_lt _ (by omega)
  have hmonthly : ValidDate (⟨d.year, d.month, 1⟩ : Date) := by
    rw [validDate_mk]
    exact ⟨hv.1, hv.2.1, hv.2.2.1, le_refl 1, daysInMonth_pos _ _⟩
  refine ⟨rfl, ⟨w2, w4, ?_, ?_⟩, ⟨rfl, rfl, rfl, hmonthly⟩, ?_⟩
  · rw [show assignPeriod .weekly d = subDays d (dow d) from rfl, w1]
    omega
  · rw [show assignPeriod .weekly d = subDays d (dow d) from rfl, w1]
    have := Nat.mod_le (toDays d) 7
    omega
  · intro g
    cases g with
    | daily => exact decode_serialize_valid d hv hy
    | weekly => exact decode_serialize_valid _ w2 (le_trans w3 hy)
    | monthly => exact decode_serialize_valid _ hmonthly hy

/-- Claim C8 witness: 2024-03-15 (a Friday).  Its weekly period is the
Monday 2024-03-11, its monthly period is 2024-03-01, and the weekly period
serializes to "2024-03-11". -/
theorem C8_witness :
    ValidDate ⟨2024, 3, 15⟩ ∧ (2024 ≤ 9999) ∧
    (ValidDate (assignPeriod .weekly ⟨2024, 3, 15⟩) ∧
      dow (assignPeriod .weekly ⟨2024, 3, 15⟩) = 0 ∧
      toDays (assignPeriod .weekly ⟨2024, 3, 15⟩) ≤ toDays ⟨2024, 3, 15⟩ ∧
      toDays ⟨2024, 3, 15⟩ < toDays (assignPeriod .weekly ⟨2024, 3, 15⟩) + 7) ∧
    assignPeriod .weekly ⟨2024, 3, 15⟩ = ⟨2024, 3, 11⟩ ∧
    assignPeriod .monthly ⟨2024, 3, 15⟩ = ⟨2024, 3, 1⟩ ∧
    serializeDate (assignPeriod .weekly ⟨2024, 3, 15⟩) = "2024-03-11" :=
  ⟨by rw [validDate_mk]; decide, by decide,
   (C8_period_assignment ⟨2024, 3, 15⟩ (by rw [validDate_mk]; decide) (by decide)).2.1,
   by decide, by decide, by decide⟩
